import Mathlib

/-!
Verification development for the fimeval_viewer catalog-build pipeline
(`build_catalog.py` and the lenient-JSON helpers of `utilis/s3_catalog.py`).

Python strings are modelled as lists of Unicode code points (`Str`).
Python ints and floats are merged into exact rationals; the float constants
NaN / Infinity / -Infinity accepted by Python's `json` module get their own
constructors.  Regular-expression substitutions are modelled by direct
character scans that reproduce the scanning/backtracking behaviour of the
concrete patterns used in the source.
-/

namespace FimCatalog

/-- Python `str`, modelled as a list of Unicode code points. -/
abbrev Str := List Char

/-- JSON values as produced by Python's `json.loads`.  Ints and floats are
merged into exact rationals (`num`); `nan` and `inf` model the non-finite
float constants that Python's parser accepts by default. -/
inductive JsonValue where
  | null
  | bool (b : Bool)
  | num (q : ℚ)
  | nan
  | inf (neg : Bool)
  | str (s : Str)
  | arr (elems : List JsonValue)
  | obj (fields : List (Str × JsonValue))
deriving Repr

/-- JSON whitespace accepted between tokens by Python's `json` module. -/
def isJsonWs (c : Char) : Bool :=
  c = ' ' || c = '\t' || c = '\n' || c = '\r'

/-- Skip JSON whitespace. -/
def skipWs (s : Str) : Str := s.dropWhile isJsonWs

/-- Numeric value of a decimal digit character. -/
def digitVal (c : Char) : Nat := c.toNat - '0'.toNat

/-- Natural number denoted by a list of decimal digit characters. -/
def digitsToNat (ds : Str) : Nat := ds.foldl (fun a c => 10 * a + digitVal c) 0

/-- Value of a hexadecimal digit character. -/
def hexVal (c : Char) : Nat :=
  if c.isDigit then c.toNat - '0'.toNat
  else if 'a' ≤ c ∧ c ≤ 'f' then c.toNat - 'a'.toNat + 10
  else if 'A' ≤ c ∧ c ≤ 'F' then c.toNat - 'A'.toNat + 10
  else 0

/-- Test for a hexadecimal digit character. -/
def isHexDigit (c : Char) : Bool :=
  c.isDigit || ('a' ≤ c && c ≤ 'f') || ('A' ≤ c && c ≤ 'F')

/-- Body of a JSON string literal after the opening quote: collects characters
until the closing quote, handling the escape sequences Python's `json`
accepts, and rejecting raw control characters (strict mode). -/
def parseStringBody : Nat → Str → Str → Option (Str × Str)
  | 0, _, _ => none
  | _ + 1, '"' :: rest, acc => some (acc.reverse, rest)
  | f + 1, '\\' :: '"' :: rest, acc => parseStringBody f rest ('"' :: acc)
  | f + 1, '\\' :: '\\' :: rest, acc => parseStringBody f rest ('\\' :: acc)
  | f + 1, '\\' :: '/' :: rest, acc => parseStringBody f rest ('/' :: acc)
  | f + 1, '\\' :: 'b' :: rest, acc => parseStringBody f rest ('\x08' :: acc)
  | f + 1, '\\' :: 'f' :: rest, acc => parseStringBody f rest ('\x0C' :: acc)
  | f + 1, '\\' :: 'n' :: rest, acc => parseStringBody f rest ('\n' :: acc)
  | f + 1, '\\' :: 'r' :: rest, acc => parseStringBody f rest ('\r' :: acc)
  | f + 1, '\\' :: 't' :: rest, acc => parseStringBody f rest ('\t' :: acc)
  | f + 1, '\\' :: 'u' :: h1 :: h2 :: h3 :: h4 :: rest, acc =>
    if isHexDigit h1 && isHexDigit h2 && isHexDigit h3 && isHexDigit h4 then
      let n := ((hexVal h1 * 16 + hexVal h2) * 16 + hexVal h3) * 16 + hexVal h4
      match rest with
      | '\\' :: 'u' :: g1 :: g2 :: g3 :: g4 :: rest2 =>
        let m := ((hexVal g1 * 16 + hexVal g2) * 16 + hexVal g3) * 16 + hexVal g4
        if 0xD800 ≤ n ∧ n < 0xDC00 ∧ 0xDC00 ≤ m ∧ m < 0xE000 ∧
            (isHexDigit g1 && isHexDigit g2 && isHexDigit g3 && isHexDigit g4) = true then
          parseStringBody f rest2
            (Char.ofNat (0x10000 + (n - 0xD800) * 0x400 + (m - 0xDC00)) :: acc)
        else parseStringBody f rest (Char.ofNat n :: acc)
      | _ => parseStringBody f rest (Char.ofNat n :: acc)
    else none
  | _ + 1, '\\' :: _, _ => none
  | f + 1, c :: rest, acc => if c.toNat < 0x20 then none else parseStringBody f rest (c :: acc)
  | _ + 1, [], _ => none

/-- Parse a JSON number token (the regex `-?(0|[1-9]\d*)(\.\d+)?([eE][+-]?\d+)?`
used by Python's `json`), returning its exact rational value and the rest of
the input.  The token match is maximal-munch per group, exactly as the regex
behaves; a leading zero followed by more digits only consumes the `0`. -/
def parseNumber (s : Str) : Option (JsonValue × Str) :=
  let (neg, s1) := match s with
    | '-' :: r => (true, r)
    | _ => (false, s)
  match s1 with
  | c :: _ =>
    if c.isDigit then
      let (ip, s2) :=
        if c = '0' then ([c], s1.drop 1)
        else (s1.takeWhile Char.isDigit, s1.dropWhile Char.isDigit)
      let (fp, s3) := match s2 with
        | '.' :: r =>
          let ds := r.takeWhile Char.isDigit
          if ds = [] then (([] : Str), s2) else (ds, r.dropWhile Char.isDigit)
        | _ => ([], s2)
      let (ex, s4) := match s3 with
        | e :: r =>
          if e = 'e' ∨ e = 'E' then
            let (esign, r1) := match r with
              | '+' :: r2 => ((1 : Int), r2)
              | '-' :: r2 => ((-1 : Int), r2)
              | _ => ((1 : Int), r)
            let ds := r1.takeWhile Char.isDigit
            if ds = [] then ((0 : Int), s3)
            else (esign * (digitsToNat ds : Int), r1.dropWhile Char.isDigit)
          else ((0 : Int), s3)
        | _ => ((0 : Int), s3)
      let mant : Int := (if neg then -1 else 1) * (digitsToNat (ip ++ fp) : Int)
      let e10 : Int := ex - (fp.length : Int)
      let q : ℚ :=
        if 0 ≤ e10 then ((mant * ((10 : Int) ^ e10.toNat) : Int) : ℚ)
        else mkRat mant ((10 : Nat) ^ (-e10).toNat)
      some (.num q, s4)
    else none
  | [] => none

/-- Remove the first entry with the given key from an association list. -/
def removeKey : List (Str × JsonValue) → Str → List (Str × JsonValue)
  | [], _ => []
  | (k0, v0) :: rest, k => if k0 = k then rest else (k0, v0) :: removeKey rest k

/-- Python `dict` lookup on the association list of an object. -/
def objGet (fields : List (Str × JsonValue)) (k : Str) : Option JsonValue :=
  match fields with
  | [] => none
  | (k0, v0) :: rest => if k0 = k then some v0 else objGet rest k

/-- Prepend a key/value pair to already-built object fields with Python dict
semantics: if the key reappears later, the later value wins but the key keeps
its first (front) position. -/
def objCons (k : Str) (v : JsonValue) (fields : List (Str × JsonValue)) :
    List (Str × JsonValue) :=
  match objGet fields k with
  | some v2 => (k, v2) :: removeKey fields k
  | none => (k, v) :: fields

/-- Recursive-descent JSON parser on fuel, modelling Python's `json.loads`
grammar (including the NaN/Infinity constants it accepts by default).
Container tails are parsed by re-entering the parser on a reconstructed
input so that the recursion stays structural on the fuel. -/
def parseJ : Nat → Str → Option (JsonValue × Str)
  | 0, _ => none
  | fuel + 1, s =>
    match s with
    | 'n' :: 'u' :: 'l' :: 'l' :: rest => some (.null, rest)
    | 't' :: 'r' :: 'u' :: 'e' :: rest => some (.bool true, rest)
    | 'f' :: 'a' :: 'l' :: 's' :: 'e' :: rest => some (.bool false, rest)
    | 'N' :: 'a' :: 'N' :: rest => some (.nan, rest)
    | 'I' :: 'n' :: 'f' :: 'i' :: 'n' :: 'i' :: 't' :: 'y' :: rest =>
      some (.inf false, rest)
    | '-' :: 'I' :: 'n' :: 'f' :: 'i' :: 'n' :: 'i' :: 't' :: 'y' :: rest =>
      some (.inf true, rest)
    | '"' :: rest => (parseStringBody (rest.length + 1) rest []).map (fun p => (.str p.1, p.2))
    | '[' :: rest =>
      match skipWs rest with
      | ']' :: r => some (.arr [], r)
      | t =>
        match parseJ fuel t with
        | none => none
        | some (v, r) =>
          match skipWs r with
          | ']' :: r2 => some (.arr [v], r2)
          | ',' :: r2 =>
            match skipWs r2 with
            | ']' :: _ => none
            | _ =>
              match parseJ fuel ('[' :: r2) with
              | some (.arr vs, r3) => some (.arr (v :: vs), r3)
              | _ => none
          | _ => none
    | '{' :: rest =>
      match skipWs rest with
      | '}' :: r => some (.obj [], r)
      | '"' :: t =>
        match parseStringBody (t.length + 1) t [] with
        | none => none
        | some (k, r) =>
          match skipWs r with
          | ':' :: r1 =>
            match parseJ fuel (skipWs r1) with
            | none => none
            | some (v, r2) =>
              match skipWs r2 with
              | '}' :: r3 => some (.obj [(k, v)], r3)
              | ',' :: r3 =>
                match skipWs r3 with
                | '}' :: _ => none
                | _ =>
                  match parseJ fuel ('{' :: r3) with
                  | some (.obj fs, r4) => some (.obj (objCons k v fs), r4)
                  | _ => none
              | _ => none
          | _ => none
      | _ => none
    | _ => parseNumber s

/-- Python `json.loads`: parse one JSON document, requiring the whole input
(modulo surrounding whitespace) to be consumed.  `none` models
`json.JSONDecodeError`. -/
def json_loads (raw : Str) : Option JsonValue :=
  match parseJ (2 * raw.length + 8) (skipWs raw) with
  | some (v, rest) => if skipWs rest = [] then some v else none
  | none => none

/-- Python `\s` (whitespace class), restricted to the ASCII whitespace
characters, which are the only ones the repository's inputs use. -/
def pyIsSpace (c : Char) : Bool :=
  c = ' ' || c = '\t' || c = '\n' || c = '\r' || c = '\x0b' || c = '\x0c'

/-- Python word characters `[A-Za-z0-9_]` as used by the NaN/Infinity
look-around guards. -/
def isWordChar (c : Char) : Bool :=
  c.isAlpha || c.isDigit || c = '_'

/-- Whether the look-behind `(?<![A-Za-z0-9_])` holds given the previous
character of the original text (`none` at the start of the text). -/
def lookbehindOk (prev : Option Char) : Bool :=
  match prev with
  | none => true
  | some c => !isWordChar c

/-- Whether the look-ahead `(?![A-Za-z0-9_])` holds for the given remainder. -/
def lookaheadOk (rest : Str) : Bool :=
  match rest.head? with
  | none => true
  | some c => !isWordChar c

/-- Model of `re.sub(r'/\*.*?\*/', '', txt, flags=re.DOTALL)`: remove each
block comment from `/*` to the nearest following `*/`; an unclosed `/*`
cannot match and is left untouched. -/
def afterBlockClose : Str → Option Str
  | [] => none
  | '*' :: '/' :: rest => some rest
  | _ :: rest => afterBlockClose rest

/-- Worker for block-comment removal, on fuel. -/
def blockCommentSub : Nat → Str → Str
  | 0, s => s
  | f + 1, '/' :: '*' :: rest =>
    match afterBlockClose rest with
    | some r => blockCommentSub f r
    | none => '/' :: '*' :: rest
  | f + 1, c :: rest => c :: blockCommentSub f rest
  | _ + 1, [] => []

/-- Model of `re.sub(r'(^|[,\x7b]\s*)//.*$', r'\1', txt, flags=re.MULTILINE)`:
remove line comments that start a line or follow a comma/open-brace plus
whitespace, keeping the captured group.  `atStart` tracks whether the scan
position is at the start of a line (for the multiline `^`). -/
def lineCommentSub : Nat → Bool → Str → Str
  | 0, _, s => s
  | _ + 1, _, [] => []
  | f + 1, atStart, c :: rest =>
    if atStart && c = '/' && rest.head? = some '/' then
      lineCommentSub f false ((c :: rest).dropWhile (fun x => x ≠ '\n'))
    else if c = ',' || c = '{' then
      let w := rest.takeWhile pyIsSpace
      let r2 := rest.drop w.length
      match r2 with
      | '/' :: '/' :: r3 =>
        c :: (w ++ lineCommentSub f false (r3.dropWhile (fun x => x ≠ '\n')))
      | _ => c :: lineCommentSub f false rest
    else c :: lineCommentSub f (c = '\n') rest

/-- Model of `re.sub(r',(\s*[}\]])', r'\1', txt)`: drop a comma standing,
up to whitespace, right before a closing brace or bracket. -/
def trailingCommaSub : Nat → Str → Str
  | 0, s => s
  | _ + 1, [] => []
  | f + 1, ',' :: rest =>
    let w := rest.takeWhile pyIsSpace
    let r2 := rest.drop w.length
    match r2 with
    | c :: r3 =>
      if c = '}' || c = ']' then w ++ (c :: trailingCommaSub f r3)
      else ',' :: trailingCommaSub f rest
    | [] => ',' :: trailingCommaSub f rest
  | f + 1, c :: rest => c :: trailingCommaSub f rest

/-- The `_SMART_QUOTES` table applied via `str.replace` (all occurrences of
each single-character pattern). -/
def unsmartChar (c : Char) : Char :=
  if c = '“' then '"'
  else if c = '”' then '"'
  else if c = '‘' then '\''
  else if c = '’' then '\''
  else c

/-- Model of `_unsmart`. -/
def pyUnsmart (s : Str) : Str := s.map unsmartChar

/-- Attempt the HUC pattern `"(HUC\d{1,maxd})"\s*:\s*(0\d+)(\s*[,}\]])`
starting right after an opening quote; on success returns the replacement
text `"\1": "\2"\3` together with the remaining input after the match. -/
def tryHucMatch (maxd : Nat) (s : Str) : Option (Str × Str) :=
  match s with
  | 'H' :: 'U' :: 'C' :: t =>
    let ds := t.takeWhile Char.isDigit
    if 1 ≤ ds.length ∧ ds.length ≤ maxd then
      match t.drop ds.length with
      | '"' :: u =>
        let u1 := u.dropWhile pyIsSpace
        match u1 with
        | ':' :: u2 =>
          let u3 := u2.dropWhile pyIsSpace
          match u3 with
          | '0' :: u4 =>
            let ds2 := u4.takeWhile Char.isDigit
            if ds2 = [] then none
            else
              let u5 := u4.drop ds2.length
              let w3 := u5.takeWhile pyIsSpace
              match u5.drop w3.length with
              | br :: u6 =>
                if br = ',' || br = '}' || br = ']' then
                  some ('"' :: 'H' :: 'U' :: 'C' :: ds ++ '"' :: ':' :: ' ' :: '"' :: '0' ::
                        ds2 ++ '"' :: w3 ++ [br], u6)
                else none
              | [] => none
          | _ => none
        | _ => none
      | _ => none
    else none
  | _ => none

/-- Model of `_HUC_LEADING0_RE.sub(r'"\1": "\2"\3', txt)` with `maxd` the
upper bound of the `\d{1,maxd}` key-digit group (2 in `build_catalog.py`,
3 in `utilis/s3_catalog.py`). -/
def hucSub (maxd : Nat) : Nat → Str → Str
  | 0, s => s
  | _ + 1, [] => []
  | f + 1, '"' :: rest =>
    match tryHucMatch maxd rest with
    | some (repl, remainder) => repl ++ hucSub maxd f remainder
    | none => '"' :: hucSub maxd f rest
  | f + 1, c :: rest => c :: hucSub maxd f rest

/-- Model of `re.sub(r'(?<![A-Za-z0-9_])NaN(?![A-Za-z0-9_])', 'null', txt)`,
scanning with the previous original character for the look-behind. -/
def nanSub : Nat → Option Char → Str → Str
  | 0, _, s => s
  | _ + 1, _, [] => []
  | f + 1, prev, c :: rest =>
    if c = 'N' && "aN".toList.isPrefixOf rest &&
        lookbehindOk prev && lookaheadOk (rest.drop 2) then
      'n' :: 'u' :: 'l' :: 'l' :: nanSub f (some 'N') (rest.drop 2)
    else c :: nanSub f (some c) rest

/-- Model of `re.sub(r'(?<![A-Za-z0-9_])-?Infinity(?![A-Za-z0-9_])', 'null', txt)`;
the optional `-` is taken greedily, as the regex engine does. -/
def infSub : Nat → Option Char → Str → Str
  | 0, _, s => s
  | _ + 1, _, [] => []
  | f + 1, prev, c :: rest =>
    if c = '-' && "Infinity".toList.isPrefixOf rest &&
        lookbehindOk prev && lookaheadOk (rest.drop 8) then
      'n' :: 'u' :: 'l' :: 'l' :: infSub f (some 'y') (rest.drop 8)
    else if c = 'I' && "nfinity".toList.isPrefixOf rest &&
        lookbehindOk prev && lookaheadOk (rest.drop 7) then
      'n' :: 'u' :: 'l' :: 'l' :: infSub f (some 'y') (rest.drop 7)
    else c :: infSub f (some c) rest

/-- Model of `lenient_json_load` from `build_catalog.py`: the fixed repair
sequence (BOM strip, block comments, line comments, trailing commas, smart
quotes, HUC leading zeros, NaN, Infinity) followed by `json.loads`. -/
def lenient_json_load (raw : Str) : Option JsonValue :=
  let t0 := raw.dropWhile (fun c => c = '\uFEFF')
  let t1 := blockCommentSub (t0.length + 1) t0
  let t2 := lineCommentSub (t1.length + 1) true t1
  let t3 := trailingCommaSub (t2.length + 1) t2
  let t4 := pyUnsmart t3
  let t5 := hucSub 2 (t4.length + 1) t4
  let t6 := nanSub (t5.length + 1) none t5
  let t7 := infSub (t6.length + 1) none t6
  json_loads t7

/-- Model of `_lenient_json_parse` from `utilis/s3_catalog.py`: only the HUC
leading-zero fix (keys `HUC\d{1,3}`) and trailing-comma removal, then
`json.loads`. -/
def lenient_json_parse_s3 (raw : Str) : Option JsonValue :=
  let t1 := hucSub 3 (raw.length + 1) raw
  let t2 := trailingCommaSub (t1.length + 1) t1
  json_loads t2

/-- Model of `load_with_context`: strict parse first; on failure the lenient
repair; on failure again a `ValueError` whose diagnostic text we abstract to
the failing location. -/
def load_with_context (raw : Str) (loc : Str) : Except Str JsonValue :=
  match json_loads raw with
  | some v => .ok v
  | none =>
    match lenient_json_load raw with
    | some v => .ok v
    | none => .error ("Bad JSON at ".toList ++ loc)

/-- Python truthiness of a parsed JSON value (`bool(v)`). -/
def pyTruthy : JsonValue → Bool
  | .null => false
  | .bool b => b
  | .num q => !(q = 0)
  | .nan => true
  | .inf _ => true
  | .str s => !s.isEmpty
  | .arr l => !l.isEmpty
  | .obj l => !l.isEmpty

/-- Decimal digits of a natural number. -/
def natDigits (n : Nat) : Str := Nat.toDigits 10 n

/-- Decimal rendering of an integer. -/
def intStr (i : Int) : Str :=
  if i < 0 then '-' :: natDigits i.natAbs else natDigits i.natAbs

/-- Number of times `p` divides `n` (fuelled division loop). -/
def countFac : Nat → Nat → Nat → Nat
  | 0, _, _ => 0
  | f + 1, p, n => if 2 ≤ p ∧ 0 < n ∧ n % p = 0 then countFac f p (n / p) + 1 else 0

/-- Canonical decimal rendering of a rational whose denominator divides a
power of ten (every float produced by JSON parsing has this form): integers
render without a point, other values as `a.b` with trailing zeros stripped.
This matches Python's `repr` on the decimal-exact values the claims use. -/
def renderNum (q : ℚ) : Str :=
  if q.den = 1 then intStr q.num
  else
    let k := max (countFac q.den 2 q.den) (countFac q.den 5 q.den)
    let scaled : Int := q.num * (((10 : Nat) ^ k : Nat) : Int) / (q.den : Int)
    let digs0 := natDigits scaled.natAbs
    let digs := if digs0.length ≤ k then
        List.replicate (k + 1 - digs0.length) '0' ++ digs0 else digs0
    let ip := digs.take (digs.length - k)
    let fp0 := digs.drop (digs.length - k)
    let fp1 := (fp0.reverse.dropWhile (fun c => c = '0')).reverse
    let fp := if fp1 = [] then ['0'] else fp1
    (if q.num < 0 then ['-'] else []) ++ ip ++ '.' :: fp

/-- Four-digit lowercase hexadecimal rendering. -/
def hex4 (n : Nat) : Str :=
  let d := fun (k : Nat) =>
    let v := n / 16 ^ k % 16
    if v < 10 then Char.ofNat ('0'.toNat + v) else Char.ofNat ('a'.toNat + v - 10)
  [d 3, d 2, d 1, d 0]

/-- Escaping of one character inside a `json.dumps` string literal
(`ensure_ascii=False`). -/
def jsonEscapeChar (c : Char) : Str :=
  if c = '"' then ['\\', '"']
  else if c = '\\' then ['\\', '\\']
  else if c = '\n' then ['\\', 'n']
  else if c = '\t' then ['\\', 't']
  else if c = '\r' then ['\\', 'r']
  else if c = '\x08' then ['\\', 'b']
  else if c = '\x0C' then ['\\', 'f']
  else if c.toNat < 0x20 then '\\' :: 'u' :: hex4 c.toNat
  else [c]

mutual

/-- Structural size of a JSON value, bounding every nesting depth. -/
def jsize : JsonValue → Nat
  | .arr es => 1 + jsizeL es
  | .obj fs => 1 + jsizeF fs
  | _ => 1

/-- Structural size of a list of JSON values. -/
def jsizeL : List JsonValue → Nat
  | [] => 0
  | v :: vs => jsize v + jsizeL vs

/-- Structural size of object fields. -/
def jsizeF : List (Str × JsonValue) → Nat
  | [] => 0
  | (_, v) :: fs => jsize v + jsizeF fs

end

/-- Model of `json.dumps(v, ensure_ascii=False)` with the default separators,
on fuel (`jsize` bounds the recursion depth). -/
def dumpsF : Nat → JsonValue → Str
  | 0, _ => []
  | f + 1, v =>
    match v with
    | .null => "null".toList
    | .bool b => (if b then "true" else "false").toList
    | .num q => renderNum q
    | .nan => "NaN".toList
    | .inf neg => ((if neg then "-" else "") ++ "Infinity").toList
    | .str s => '"' :: s.foldr (fun c acc => jsonEscapeChar c ++ acc) ['"']
    | .arr es => '[' :: List.intercalate ", ".toList (es.map (dumpsF f)) ++ [']']
    | .obj fs => '{' :: List.intercalate ", ".toList
        (fs.map (fun kv => dumpsF f (.str kv.1) ++ ':' :: ' ' :: dumpsF f kv.2)) ++ ['}']

/-- Model of `json.dumps(v, ensure_ascii=False)`. -/
def dumps (v : JsonValue) : Str := dumpsF (jsize v + 1) v

/-- Python `repr` of a parsed JSON value, on fuel; string quoting is the
simple single-quote form (no claim exercises the escaping corner cases). -/
def pyReprF : Nat → JsonValue → Str
  | 0, _ => []
  | f + 1, v =>
    match v with
    | .null => "None".toList
    | .bool b => (if b then "True" else "False").toList
    | .num q => renderNum q
    | .nan => "nan".toList
    | .inf neg => ((if neg then "-" else "") ++ "inf").toList
    | .str s => '\'' :: s ++ ['\'']
    | .arr es => '[' :: List.intercalate ", ".toList (es.map (pyReprF f)) ++ [']']
    | .obj fs => '{' :: List.intercalate ", ".toList
        (fs.map (fun kv => pyReprF f (.str kv.1) ++ ':' :: ' ' :: pyReprF f kv.2)) ++ ['}']

/-- Python `str()` of a parsed JSON value: the string itself for strings,
`repr`-style rendering otherwise. -/
def pyStr (v : JsonValue) : Str :=
  match v with
  | .str s => s
  | v => pyReprF (jsize v + 1) v

/-- Python `str.strip()` restricted to ASCII whitespace. -/
def pyStrip (s : Str) : Str :=
  ((s.dropWhile pyIsSpace).reverse.dropWhile pyIsSpace).reverse

/-- Python `str.split(sep)` for a one-character separator. -/
def pySplitAux (sep : Char) : Str → Str → List Str
  | [], cur => [cur.reverse]
  | c :: cs, cur =>
    if c = sep then cur.reverse :: pySplitAux sep cs []
    else pySplitAux sep cs (c :: cur)

/-- Python `str.split(sep)` for a one-character separator. -/
def pySplit (sep : Char) (s : Str) : List Str := pySplitAux sep s []

/-- Python `float()` applied to a string: optional sign, decimal digits with
optional point and exponent.  The `inf`/`nan` spellings Python would accept
are not representable in `ℚ` and map to `none` (treated as a conversion
failure); no repository input uses them. -/
def parseFloatStr (s : Str) : Option ℚ :=
  let t := pyStrip s
  let (neg, t1) := match t with
    | '-' :: r => (true, r)
    | '+' :: r => (false, r)
    | _ => (false, t)
  let ip := t1.takeWhile Char.isDigit
  let t2 := t1.drop ip.length
  let (fp, t3) := match t2 with
    | '.' :: r => (r.takeWhile Char.isDigit, r.dropWhile Char.isDigit)
    | _ => ([], t2)
  if ip = [] ∧ fp = [] then none
  else
    let (ex, t4) : Int × Str := match t3 with
      | e :: r =>
        if e = 'e' ∨ e = 'E' then
          let (esign, r1) : Int × Str := match r with
            | '+' :: r2 => (1, r2)
            | '-' :: r2 => (-1, r2)
            | _ => (1, r)
          let ds := r1.takeWhile Char.isDigit
          if ds = [] then (0, t3)
          else (esign * (digitsToNat ds : Int), r1.dropWhile Char.isDigit)
        else (0, t3)
      | _ => (0, t3)
    match t4 with
    | [] =>
      let mant : Int := (if neg then -1 else 1) * (digitsToNat (ip ++ fp) : Int)
      let e10 : Int := ex - (fp.length : Int)
      some (if 0 ≤ e10 then ((mant * ((10 : Int) ^ e10.toNat) : Int) : ℚ)
            else mkRat mant ((10 : Nat) ^ (-e10).toNat))
    | _ => none

/-- Python `float()` over a parsed JSON value: numbers are themselves, bools
are 0/1, numeric strings are parsed; everything else raises (`none`).
NaN/Infinity are not representable in `ℚ` and map to `none`. -/
def pyFloat : JsonValue → Option ℚ
  | .num q => some q
  | .bool b => some (if b then 1 else 0)
  | .str s => parseFloatStr s
  | _ => none

/-- Python `dict.get` on an object's fields: a JSON `null` value is Python
`None`, indistinguishable from an absent key for `.get`. -/
def pyGet (fields : List (Str × JsonValue)) (k : Str) : Option JsonValue :=
  match objGet fields k with
  | some JsonValue.null => none
  | r => r

/-- The `MAX_STR_LEN` truncation applied by `safe_get` to string values. -/
def truncVal (v : JsonValue) : JsonValue :=
  match v with
  | .str s => .str (s.take 2000)
  | v => v

/-- Model of `safe_get(d, *names)`: first alias present with a non-`None`
value wins; strings are truncated to `MAX_STR_LEN`. -/
def safe_get (fields : List (Str × JsonValue)) : List Str → Option JsonValue
  | [] => none
  | n :: ns =>
    match objGet fields n with
    | none => safe_get fields ns
    | some JsonValue.null => safe_get fields ns
    | some v => some (truncVal v)

/-- Model of `coerce_list`. -/
def coerce_list (x : Option JsonValue) : List Str :=
  match x with
  | none => []
  | some (.arr l) => l.map (fun v => (pyStr v).take 2000)
  | some v => [(pyStr v).take 2000]

/-- Model of `extract_ymd_iso`/`extract_return_period`'s text coercion:
a string stays itself, anything else is `json.dumps`-serialized. -/
def coerceText (v : JsonValue) : Str :=
  match v with
  | .str s => s
  | v => dumps v

/-- Leftmost match of `(?<!\d)(\d{8})(?!\d)`: an 8-digit run not adjacent to
further digits, scanning with the previous character for the look-behind. -/
def findYmd8 : Option Char → Str → Option Str
  | _, [] => none
  | prev, c :: rest =>
    let run8 := (c :: rest).take 8
    if (match prev with | some p => !p.isDigit | none => true) &&
        run8.length = 8 && run8.all Char.isDigit &&
        (match ((c :: rest).drop 8).head? with | some d => !d.isDigit | none => true) then
      some run8
    else findYmd8 (some c) rest

/-- Gregorian leap-year rule, as implemented by `datetime`. -/
def isLeap (y : Nat) : Bool :=
  y % 4 = 0 && (y % 100 ≠ 0 || y % 400 = 0)

/-- Days in a month, as validated by `datetime.strptime`. -/
def daysInMonth (y m : Nat) : Nat :=
  if m = 2 then (if isLeap y then 29 else 28)
  else if m = 4 ∨ m = 6 ∨ m = 9 ∨ m = 11 then 30
  else 31

/-- Zero-padded decimal rendering. -/
def padNat (w n : Nat) : Str :=
  let ds := natDigits n
  List.replicate (w - ds.length) '0' ++ ds

/-- Model of `datetime.strptime(ds, "%Y%m%d").date().isoformat()` on an
8-digit string: `none` models the `ValueError` swallowed by the caller. -/
def ymdIso (ds : Str) : Option Str :=
  let y := digitsToNat (ds.take 4)
  let m := digitsToNat ((ds.drop 4).take 2)
  let d := digitsToNat (ds.drop 6)
  if 1 ≤ y ∧ 1 ≤ m ∧ m ≤ 12 ∧ 1 ≤ d ∧ d ≤ daysInMonth y m then
    some (padNat 4 y ++ '-' :: padNat 2 m ++ '-' :: padNat 2 d)
  else none

/-- Model of `extract_ymd_iso`. -/
def extract_ymd_iso (t : Option JsonValue) : Option Str :=
  match t with
  | none => none
  | some v =>
    match findYmd8 none (coerceText v) with
    | none => none
    | some ds => ymdIso ds

/-- Leftmost match of `(?<!\d)(\d{2,4})(?!\d)`: a maximal digit run of
length 2–4; longer or shorter runs cannot match at any of their positions. -/
def findRun24 : Option Char → Str → Option Str
  | _, [] => none
  | prev, c :: rest =>
    if (match prev with | some p => !p.isDigit | none => true) && c.isDigit then
      let run := (c :: rest).takeWhile Char.isDigit
      if 2 ≤ run.length ∧ run.length ≤ 4 then some run
      else findRun24 (some c) rest
    else findRun24 (some c) rest

/-- Model of `extract_return_period`. -/
def extract_return_period (t : Option JsonValue) : Option Nat :=
  match t with
  | none => none
  | some v =>
    let s := coerceText v
    match findYmd8 none s with
    | some _ => none
    | none => (findRun24 none s).map digitsToNat

/-- Test for the JSON `null` value (Python `is None`). -/
def isNullV : JsonValue → Bool
  | .null => true
  | _ => false

/-- Model of `centroid_from_meta`'s `Extent` fallback branch. -/
def extentCentroid (fields : List (Str × JsonValue)) : ℚ × ℚ :=
  let ex : JsonValue := match pyGet fields "Extent".toList with
    | some v => if pyTruthy v then v else .obj []
    | none => .obj []
  match ex with
  | .obj f2 =>
    match objGet f2 "xmin".toList, objGet f2 "ymin".toList,
        objGet f2 "xmax".toList, objGet f2 "ymax".toList with
    | some xmin, some ymin, some xmax, some ymax =>
      if isNullV xmin || isNullV ymin || isNullV xmax || isNullV ymax then (0, 0)
      else
        match pyFloat xmin, pyFloat ymin, pyFloat xmax, pyFloat ymax with
        | some a, some b, some c, some d => ((a + c) / 2, (b + d) / 2)
        | _, _, _, _ => (0, 0)
    | _, _, _, _ => (0, 0)
  | _ => (0, 0)

/-- Model of `centroid_from_meta`. -/
def centroid_from_meta (fields : List (Str × JsonValue)) : ℚ × ℚ :=
  match pyGet fields "Location of the centroid of the flood map".toList with
  | some (.arr (a :: b :: _)) =>
    match pyFloat a, pyFloat b with
    | some x, some y => (x, y)
    | _, _ => extentCentroid fields
  | _ => extentCentroid fields

/-- Consume the literal word `tier` case-insensitively. -/
def dropTierWord : Str → Option Str
  | t :: i :: e :: r :: rest =>
    if t.toLower = 't' ∧ i.toLower = 'i' ∧ e.toLower = 'e' ∧ r.toLower = 'r' then some rest
    else none
  | _ => none

/-- The candidate capture of the tier pattern: the character after the
case-insensitive `tier` and the `[_\s-]*` run, provided the word boundary
after it holds; whether it is a digit is checked by `tierRegexMatch`. -/
def tierDigitCand (s : Str) : Option Char :=
  match dropTierWord (s.dropWhile pyIsSpace) with
  | none => none
  | some rest =>
    match rest.dropWhile (fun c => c = '_' || pyIsSpace c || c = '-') with
    | [] => none
    | d :: rest2 =>
      match rest2 with
      | [] => some d
      | c :: _ => if isWordChar c then none else some d

/-- Anchored match of `(?i)\s*tier[_\s-]*(\d)\b` (the pattern of `norm_tier`),
returning the captured digit. -/
def tierRegexMatch (s : Str) : Option Char :=
  match tierDigitCand s with
  | some d => if d.isDigit then some d else none
  | none => none

/-- Model of `norm_tier`: empty (falsy) names give `Unknown_Tier`; a match of
the tier pattern is canonicalized to `Tier_<digit>`; otherwise the stripped
name itself is returned. -/
def norm_tier (name : Str) : Str :=
  if name = [] then "Unknown_Tier".toList
  else
    let s := pyStrip name
    match tierRegexMatch s with
    | some d => "Tier_".toList ++ [d]
    | none => s

/-- Suffix of a string after its last `/` (`posixpath.basename`). -/
def afterLastSlash : Str → Str
  | [] => []
  | c :: cs =>
    if c = '/' then afterLastSlash cs
    else if '/' ∈ cs then afterLastSlash cs
    else c :: cs

/-- Index of the last `.` in a string, if any. -/
def lastDotIdx : Str → Option Nat
  | [] => none
  | c :: cs =>
    match lastDotIdx cs with
    | some i => some (i + 1)
    | none => if c = '.' then some 0 else none

/-- Root of `os.path.splitext` on a basename: cut at the last dot unless all
characters before it are dots. -/
def splitextBase (p : Str) : Str :=
  match lastDotIdx p with
  | none => p
  | some i => if (p.take i).all (fun c => c = '.') then p else p.take i

/-- Model of `stable_id`. -/
def stable_id (tier site file_or_key : Str) : Str :=
  tier ++ '/' :: (site ++ '/' :: splitextBase (afterLastSlash file_or_key))

/-- Model of `s3_http_url`. -/
def s3_http_url (bucket key : Str) : Str :=
  "https://".toList ++ bucket ++ ".s3.amazonaws.com/".toList ++ key

/-- The file-name aliases tried by `normalize_record`. -/
def fileAliases : List Str :=
  ["File_Name".toList, "File Name".toList, "File name".toList]

/-- The date-field aliases tried by `normalize_record`. -/
def dateAliases : List Str :=
  ["Date of Flood /Synthetic Flooding Event (return period (years))".toList,
   "Date of Flood".toList, "Date".toList]

/-- A truthy non-string file name makes `os.path.basename` raise a
`TypeError` inside `stable_id`; the whole record then fails. -/
def fnRaises (fn : Option JsonValue) : Bool :=
  match fn with
  | some (.str _) => false
  | some v => pyTruthy v
  | none => false

/-- The normalized catalog record (`core` dict of `normalize_record` in
`build_catalog.py`), with the HUC columns gathered in `huc`. -/
structure CoreRecord where
  id : Str
  tier : Str
  site : Str
  centroid_lon : ℚ
  centroid_lat : ℚ
  date_ymd : Option Str
  date_raw : Option JsonValue
  return_period : Option Nat
  file_name : Option JsonValue
  resolution_m : Option JsonValue
  state : Option JsonValue
  description : Option JsonValue
  river_basin : Option JsonValue
  source : Option JsonValue
  quality : JsonValue
  references : List Str
  tif_url : Option Str
  json_url : Str
  huc : List (Str × Str)
  s3_key : Str
deriving Repr

/-- The `(k, str(meta[k]))` pairs collected for the six HUC levels. -/
def hucPairs (fields : List (Str × JsonValue)) : List (Str × Str) :=
  [("HUC2", "huc2"), ("HUC4", "huc4"), ("HUC6", "huc6"),
   ("HUC8", "huc8"), ("HUC10", "huc10"), ("HUC12", "huc12")].filterMap
    (fun kv =>
      match objGet fields kv.1.toList with
      | none => none
      | some JsonValue.null => none
      | some v => some (kv.2.toList, pyStr v))

/-- Building the record fields of `normalize_record` for an object `meta`
(already known to be a dict). -/
def mkCore (bucket meta_key : Str) (fields : List (Str × JsonValue)) : CoreRecord :=
  let parts := pySplit '/' meta_key
  let tierSeg := (parts.find?
    (fun p => "tier".toList.isPrefixOf (p.map Char.toLower))).getD "Unknown_Tier".toList
  let tier := norm_tier tierSeg
  let site := match parts.reverse with
    | _ :: x :: _ => x
    | _ => "Unknown_Site".toList
  let folder := List.intercalate ['/'] parts.dropLast
  let fn := safe_get fields fileAliases
  let tif_url := match fn with
    | some v => if pyTruthy v then some (s3_http_url bucket (folder ++ '/' :: pyStr v))
                else none
    | none => none
  let date_field := safe_get fields dateAliases
  let date_ymd := if tier ≠ "Tier_4".toList then extract_ymd_iso date_field else none
  let return_period := if tier = "Tier_4".toList then extract_return_period date_field
                       else none
  let c := centroid_from_meta fields
  let rec_id := stable_id tier site (match fn with
    | some v => if pyTruthy v then pyStr v else meta_key
    | none => meta_key)
  { id := rec_id
    tier := tier
    site := site
    centroid_lon := c.1
    centroid_lat := c.2
    date_ymd := date_ymd
    date_raw := date_field
    return_period := return_period
    file_name := fn
    resolution_m := safe_get fields
      ["Resolution in meter".toList, "Resolution (m)".toList, "resolution_m".toList]
    state := safe_get fields ["State".toList]
    description := safe_get fields ["Description".toList]
    river_basin := safe_get fields ["River Basin Name".toList, "River Basin".toList]
    source := safe_get fields ["Source".toList]
    quality := match safe_get fields ["Quality".toList] with
      | some v => if pyTruthy v then v else .str tier
      | none => .str tier
    references := coerce_list (pyGet fields "References".toList)
    tif_url := tif_url
    json_url := s3_http_url bucket meta_key
    huc := hucPairs fields
    s3_key := meta_key }

/-- Model of `normalize_record`: `none` models the exceptions a non-dict
`meta` (attribute/type errors on `in`/`.get`) or a truthy non-string file
name (`TypeError` in `os.path.basename`) raise, which the batch loop catches
per object. -/
def normalize_record (bucket meta_key : Str) (meta : JsonValue) :
    Option (CoreRecord × Option JsonValue) :=
  match meta with
  | .obj fields =>
    if fnRaises (safe_get fields fileAliases) then none
    else some (mkCore bucket meta_key fields, pyGet fields "FIM_Geometry".toList)
  | _ => none

/-- Kinds of Python exception relevant to `simplify_geojson_lonlat`: shapely's
`GEOSException` (the only kind its second `try` catches) versus anything
else. -/
inductive PyExc where
  | geos
  | other
deriving Repr, DecidableEq

/-- Result of calling into an external geometry routine: a value, or a raised
exception. -/
abbrev PyResult (α : Type) := Except PyExc α

/-- Oracle for the external geometry libraries (shapely + pyproj) used by
`simplify_geojson_lonlat`: `shape`, `is_empty`, the two fixed reprojections,
`simplify(tol, preserve_topology=True)` and `mapping`.  Each callable may
raise. -/
structure GeoLib (G : Type) where
  shape : JsonValue → PyResult G
  is_empty : G → Bool
  to_3857 : G → PyResult G
  simplify : G → ℚ → PyResult G
  to_4326 : G → PyResult G
  mapping : G → JsonValue

/-- Replay of the second `try` block: a `GEOSException` is converted to the
`None` result, any other exception propagates. -/
def catchGeos (r : PyResult (Option JsonValue)) : PyResult (Option JsonValue) :=
  match r with
  | .error .geos => .ok none
  | r => r

/-- Model of `simplify_geojson_lonlat` over the geometry oracle: `None`
input, an uninterpretable input (`shape` raising anything), an empty
geometry, an empty simplification result, and a `GEOSException` during
reprojection/simplification all yield `None`; a non-GEOS exception in the
second block propagates (`Except.error`). -/
def simplify_geojson_lonlat {G : Type} (L : GeoLib G) (geom_geojson : Option JsonValue)
    (tol_m : ℚ) : PyResult (Option JsonValue) :=
  match geom_geojson with
  | none => .ok none
  | some gj =>
    match L.shape gj with
    | .error _ => .ok none
    | .ok geom =>
      if L.is_empty geom then .ok none
      else
        catchGeos (
          match L.to_3857 geom with
          | .error e => .error e
          | .ok g3857 =>
            match L.simplify g3857 tol_m with
            | .error e => .error e
            | .ok simp3857 =>
              match L.to_4326 simp3857 with
              | .error e => .error e
              | .ok simp4326 =>
                .ok (if L.is_empty simp4326 then none else some (L.mapping simp4326)))

/-- One row of `ext_rows` in `build_catalog.py`. -/
structure ExtRow where
  id : Str
  tier : Str
  site : Str
  geometry : JsonValue
deriving Repr

/-- The batch-wide accumulators of `main` in `build_catalog.py`.  `seen_ids`
is the insertion-ordered dict used for id deduplication. -/
structure BatchState where
  core_rows : List CoreRecord
  ext_rows : List ExtRow
  errors : List (Str × Str)
  seen_ids : List (Str × Nat)
deriving Repr

/-- The empty accumulators at the start of a run. -/
def initBatch : BatchState := ⟨[], [], [], []⟩

/-- Lookup in the `seen_ids` dict. -/
def seenLookup : List (Str × Nat) → Str → Option Nat
  | [], _ => none
  | (k, n) :: rest, rid => if k = rid then some n else seenLookup rest rid

/-- Model of `seen_ids[rid] += 1`, keeping insertion order. -/
def seenBump : List (Str × Nat) → Str → List (Str × Nat)
  | [], _ => []
  | (k, n) :: rest, rid => if k = rid then (k, n + 1) :: rest else (k, n) :: seenBump rest rid

/-- The id-deduplication step of the main loop: a repeated base id gets the
suffix `__<count>` with the bumped collision count; a fresh id is recorded
with count 1. -/
def dedup_assign (seen : List (Str × Nat)) (rid : Str) : Str × List (Str × Nat) :=
  match seenLookup seen rid with
  | some n => (rid ++ '_' :: '_' :: natDigits (n + 1), seenBump seen rid)
  | none => (rid, seen ++ [(rid, 1)])

/-- Append an `errors` entry (`errors.append((key, repr(e)))`; the repr text
of unexpected exceptions is abstracted to a fixed tag). -/
def addError (st : BatchState) (key msg : Str) : BatchState :=
  { st with errors := st.errors ++ [(key, msg)] }

/-- Outcome of the geometry part of one loop iteration: nothing appended, a
feature row appended, or an uncaught (non-GEOS) exception recorded by the
iteration-level handler. -/
inductive GeomOutcome where
  | nothing
  | feature (row : ExtRow)
  | failure (msg : Str)
deriving Repr

/-- The geometry half of one loop iteration (`if not args.skip_geometry and
geom:` through the `ext_rows.append`), phrased as its outcome. -/
def geom_step {G : Type} (L : GeoLib G) (skipGeom : Bool) (tol : ℚ)
    (geom : Option JsonValue) (core : CoreRecord) : GeomOutcome :=
  if skipGeom then .nothing
  else
    match geom with
    | none => .nothing
    | some g =>
      if pyTruthy g then
        match simplify_geojson_lonlat L (some g) tol with
        | .ok (some simp) =>
          if pyTruthy simp then .feature ⟨core.id, core.tier, core.site, simp⟩
          else .nothing
        | .ok none => .nothing
        | .error _ => .failure "GeometryError".toList
      else .nothing

/-- One iteration of the main loop of `build_catalog.py` over a fetched
object `(key, raw)`: parse (strict then lenient), normalize, deduplicate the
id, append the record, then derive the optional geometry feature.  Every
exception inside the iteration is caught and recorded as an error entry. -/
def process_one {G : Type} (L : GeoLib G) (skipGeom : Bool) (tol : ℚ) (bucket : Str)
    (st : BatchState) (item : Str × Str) : BatchState :=
  match load_with_context item.2 item.1 with
  | .error msg => addError st item.1 msg
  | .ok meta =>
    match normalize_record bucket item.1 meta with
    | none => addError st item.1 "TypeError".toList
    | some (core0, geom) =>
      let p := dedup_assign st.seen_ids core0.id
      let core := { core0 with id := p.1 }
      let st1 := { st with core_rows := st.core_rows ++ [core], seen_ids := p.2 }
      match geom_step L skipGeom tol geom core with
      | .nothing => st1
      | .feature row => { st1 with ext_rows := st1.ext_rows ++ [row] }
      | .failure msg => addError st1 item.1 msg

/-- The whole main loop over the listed objects, in listing order. -/
def run_batch {G : Type} (L : GeoLib G) (skipGeom : Bool) (tol : ℚ) (bucket : Str)
    (items : List (Str × Str)) : BatchState :=
  items.foldl (process_one L skipGeom tol bucket) initBatch

/-- The published `catalog_core.json` document. -/
structure CatalogSnapshot where
  schema_version : Str
  updated_at : Str
  records : List CoreRecord
  errors : List (Str × Str)
deriving Repr

/-- Assembly of the snapshot from the accumulators (`schema_version "1.1"`;
`updated_at` is the external clock reading). -/
def build_snapshot (now : Str) (st : BatchState) : CatalogSnapshot :=
  ⟨"1.1".toList, now, st.core_rows, st.errors⟩

/-- Model of `main` under `--no-upload`: the storage listing either fails
with a `ClientError` (aborting the run) or yields the fetched objects, which
the loop processes with every per-object failure caught. -/
def main_model {G : Type} (L : GeoLib G) (skipGeom : Bool) (tol : ℚ) (bucket now : Str)
    (listing : Except Str (List (Str × Str))) : Except Str CatalogSnapshot :=
  match listing with
  | .error e => .error e
  | .ok items => .ok (build_snapshot now (run_batch L skipGeom tol bucket items))

/-- Process exit status of the `__main__` guard: 2 on an uncaught
`ClientError`, 0 on normal completion. -/
def exit_status (r : Except Str CatalogSnapshot) : Nat :=
  match r with
  | .ok _ => 0
  | .error _ => 2

/-- A concrete geometry oracle on the unit geometry type in which every
operation succeeds and nothing is empty; used to instantiate batch runs
whose inputs carry no geometry, and as a witness library. -/
def unitLib : GeoLib Unit where
  shape := fun _ => .ok ()
  is_empty := fun _ => false
  to_3857 := fun _ => .ok ()
  simplify := fun _ _ => .ok ()
  to_4326 := fun _ => .ok ()
  mapping := fun _ => .obj [("type".toList, .str "Polygon".toList)]

/-- A geometry oracle in which reprojection to Web Mercator raises a
`GEOSException`; all other calls succeed. -/
def geosFailLib : GeoLib Unit where
  shape := fun _ => .ok ()
  is_empty := fun _ => false
  to_3857 := fun _ => .error .geos
  simplify := fun _ _ => .ok ()
  to_4326 := fun _ => .ok ()
  mapping := fun _ => .obj [("type".toList, .str "Polygon".toList)]

/-- Batch input whose base ids are `Tier_1/S/x__2`, `Tier_1/S/x`,
`Tier_1/S/x` in listing order: a file literally named `x__2.tif` followed by
two colliding `x.tif` records. -/
def c1_items : List (Str × Str) :=
  [("FIM_Database/Tier_1/S/a_metadata.json".toList,
    "\x7b\"File_Name\": \"x__2.tif\"\x7d".toList),
   ("FIM_Database/Tier_1/S/b_metadata.json".toList,
    "\x7b\"File_Name\": \"x.tif\"\x7d".toList),
   ("FIM_Database/Tier_1/S/c_metadata.json".toList,
    "\x7b\"File_Name\": \"x.tif\"\x7d".toList)]

/-- The ids emitted for `c1_items`. -/
def c1_ids : List Str :=
  (run_batch unitLib false 100 "sdmlab".toList c1_items).core_rows.map (fun r => r.id)

/-- The exact C5 input text `{"HUC8": 08070205}`. -/
def huc_text : Str := "\x7b\"HUC8\": 08070205\x7d".toList

/-- The C5 expected parse: an object mapping `HUC8` to the string
`"08070205"`. -/
def huc_expected : JsonValue := .obj [("HUC8".toList, .str "08070205".toList)]

/-- A valid JSON text whose string value contains a bare `NaN` token, which
the repair sequence rewrites. -/
def c4_text : Str := "\x7b\"a\": \"NaN\"\x7d".toList

/-- Ten fetched objects: nine well-formed metadata files and one (the
fourth) that is unreadable even after lenient repair. -/
def c8_items : List (Str × Str) :=
  [("FIM_Database/Tier_1/S1/m1_metadata.json".toList,
    "\x7b\"File_Name\": \"f1.tif\"\x7d".toList),
   ("FIM_Database/Tier_1/S2/m2_metadata.json".toList,
    "\x7b\"File_Name\": \"f2.tif\"\x7d".toList),
   ("FIM_Database/Tier_1/S3/m3_metadata.json".toList,
    "\x7b\"File_Name\": \"f3.tif\"\x7d".toList),
   ("FIM_Database/Tier_2/S4/m4_metadata.json".toList,
    "\x7b\"File_Name\": ".toList),
   ("FIM_Database/Tier_2/S5/m5_metadata.json".toList,
    "\x7b\"File_Name\": \"f5.tif\"\x7d".toList),
   ("FIM_Database/Tier_2/S6/m6_metadata.json".toList,
    "\x7b\"File_Name\": \"f6.tif\"\x7d".toList),
   ("FIM_Database/Tier_3/S7/m7_metadata.json".toList,
    "\x7b\"File_Name\": \"f7.tif\"\x7d".toList),
   ("FIM_Database/Tier_3/S8/m8_metadata.json".toList,
    "\x7b\"File_Name\": \"f8.tif\"\x7d".toList),
   ("FIM_Database/Tier_3/S9/m9_metadata.json".toList,
    "\x7b\"File_Name\": \"f9.tif\"\x7d".toList),
   ("FIM_Database/Tier_4/S10/m10_metadata.json".toList,
    "\x7b\"File_Name\": \"f10.tif\"\x7d".toList)]

/-- The `main` run over `c8_items`. -/
def c8_result : Except Str CatalogSnapshot :=
  main_model unitLib false 100 "sdmlab".toList "2026-01-01T00:00:00Z".toList (.ok c8_items)

/-- The C9 metadata object. -/
def c9_meta : JsonValue := .obj
  [("File_Name".toList, .str "foo.tif".toList),
   ("Date of Flood /Synthetic Flooding Event (return period (years))".toList,
    .str "20210615 flood event".toList),
   ("Location of the centroid of the flood map".toList,
    .arr [.num (-87.5 : ℚ), .num (33.2 : ℚ)])]

/-- The C9 source key. -/
def c9_key : Str := "FIM_Database/Tier_1/SiteA/foo_metadata.json".toList

/-- The `tif_url` produced for the C9 record. -/
def c9_url : Str := "https://sdmlab.s3.amazonaws.com/FIM_Database/Tier_1/SiteA/foo.tif".toList

/-- A key whose tier segment starts with `tier` but carries no digit. -/
def c6_key : Str := "tierless/site/x_metadata.json".toList

/-- The tier values the C6 claim allows, following its wording:
`Unknown_Tier` or one of `Tier_1`..`Tier_5`. -/
def spec_tier_ok (t : Str) : Bool :=
  t = "Unknown_Tier".toList || t = "Tier_1".toList || t = "Tier_2".toList ||
  t = "Tier_3".toList || t = "Tier_4".toList || t = "Tier_5".toList

/-- A metadata key accepted by the case-insensitive listing filter whose
extension is upper-case. -/
def c10_key : Str := "FIM_Database/Tier_1/SiteA/FOO_METADATA.JSON".toList

/-- Single-item batch whose metadata carries a truthy `FIM_Geometry`,
used to exercise the spatial-extract branch. -/
def c2w_items : List (Str × Str) :=
  [("FIM_Database/Tier_1/SA/g_metadata.json".toList,
    "\x7b\"File_Name\": \"g.tif\", \"FIM_Geometry\": \x7b\"t\": 1\x7d\x7d".toList)]

/-- The single feature row produced by `c2w_items` under `unitLib`. -/
def c2w_row : ExtRow :=
  ⟨"Tier_1/SA/g".toList, "Tier_1".toList, "SA".toList,
   .obj [("type".toList, .str "Polygon".toList)]⟩

/-- The shapes a tier value can actually take (used by the amended C6):
`Unknown_Tier`, a canonical `Tier_<digit>` for any decimal digit, or the
stripped text of a path segment that starts with `tier` case-insensitively. -/
def tierShape (t : Str) (meta_key : Str) : Bool :=
  t = "Unknown_Tier".toList ||
  (t.length = 6 && "Tier_".toList.isPrefixOf t &&
    (match t.getLast? with | some d => d.isDigit | none => false)) ||
  (pySplit '/' meta_key).any
    (fun p => "tier".toList.isPrefixOf (p.map Char.toLower) && t = pyStrip p)

/-- C1: evaluation of the id-deduplication at a failing input.  The batch
`c1_items` (base ids `Tier_1/S/x__2`, `Tier_1/S/x`, `Tier_1/S/x` in listing
order) makes `main` emit the id `Tier_1/S/x__2` twice: the suffix `__2`
given to the second `x.tif` collides with the record whose file is literally
named `x__2.tif`.  The emitted ids are therefore not pairwise distinct,
against the claim (and the `# Ensure unique id` intent of the code). -/
theorem C1_dedup_duplicate_ids :
    c1_ids = ["Tier_1/S/x__2".toList, "Tier_1/S/x".toList, "Tier_1/S/x__2".toList] ∧
    ¬ c1_ids.Nodup := by
  constructor
  · rfl
  · decide

/-- C5: lenient repair of the exact text `{"HUC8": 08070205}` succeeds in
both repair implementations (`lenient_json_load` of `build_catalog.py` and
`_lenient_json_parse` of `utilis/s3_catalog.py`) and parses to an object
mapping `HUC8` to the string `"08070205"` — leading zero preserved, not a
number, not a failure. -/
theorem C5_huc_leading_zero :
    lenient_json_load huc_text = some huc_expected ∧
    lenient_json_parse_s3 huc_text = some huc_expected := ⟨rfl, rfl⟩

/-- C4, counterexample: the valid JSON text `{"a": "NaN"}` strict-parses to
an object whose field `a` is the string `"NaN"`, but the repair sequence
rewrites the `NaN` inside the string literal, so repair-then-parse returns
the different value `{"a": "null"}`. -/
theorem C4_repair_changes_valid_text :
    json_loads c4_text = some (.obj [("a".toList, .str "NaN".toList)]) ∧
    lenient_json_load c4_text = some (.obj [("a".toList, .str "null".toList)]) ∧
    JsonValue.obj [("a".toList, .str "NaN".toList)] ≠
      JsonValue.obj [("a".toList, .str "null".toList)] := by
  refine ⟨rfl, rfl, ?_⟩
  intro heq
  have : "NaN".toList = "null".toList := by
    injection heq with h
    injection h with h1 _
    injection h1 with _ h2
    injection h2
  simp at this

/-- C4, amended: the loader the pipeline actually runs, `load_with_context`,
returns exactly the direct strict parse for any text that already
strict-parses — the repair sequence is only applied on strict-parse failure,
and (per the counterexample) does not itself preserve the semantics of all
valid texts. -/
theorem C4_strict_parse_wins (raw loc : Str) (v : JsonValue)
    (h : json_loads raw = some v) : load_with_context raw loc = .ok v := by
  unfold load_with_context
  rw [h]

/-- Witness for C4's amended theorem at the valid text `{"x": 1}`. -/
theorem C4_strict_parse_wins_witness :
    load_with_context "\x7b\"x\": 1\x7d".toList "k".toList =
      .ok (.obj [("x".toList, .num 1)]) :=
  C4_strict_parse_wins _ _ _ rfl

/-- C8: with nine well-formed metadata objects and one (the fourth)
unreadable even after lenient repair, the run yields exactly nine records,
exactly one error entry naming the failing key, keeps processing the six
objects after the failure, and exits with status zero. -/
theorem C8_batch_resilience :
    c8_result.map (fun s => (s.records.length, s.errors.map Prod.fst)) =
      .ok (9, ["FIM_Database/Tier_2/S4/m4_metadata.json".toList]) ∧
    c8_result.map (fun s => s.records.map (fun r => r.s3_key)) =
      .ok ["FIM_Database/Tier_1/S1/m1_metadata.json".toList,
           "FIM_Database/Tier_1/S2/m2_metadata.json".toList,
           "FIM_Database/Tier_1/S3/m3_metadata.json".toList,
           "FIM_Database/Tier_2/S5/m5_metadata.json".toList,
           "FIM_Database/Tier_2/S6/m6_metadata.json".toList,
           "FIM_Database/Tier_3/S7/m7_metadata.json".toList,
           "FIM_Database/Tier_3/S8/m8_metadata.json".toList,
           "FIM_Database/Tier_3/S9/m9_metadata.json".toList,
           "FIM_Database/Tier_4/S10/m10_metadata.json".toList] ∧
    exit_status c8_result = 0 := ⟨rfl, rfl, rfl⟩

/-- C9: the end-to-end example record.  For the metadata object `c9_meta` at
key `FIM_Database/Tier_1/SiteA/foo_metadata.json`, normalization yields
`id = Tier_1/SiteA/foo`, `date_ymd = 2021-06-15`, `return_period = null`,
`centroid_lon = -87.5`, `centroid_lat = 33.2`, and a `tif_url` ending in
`/Tier_1/SiteA/foo.tif`. -/
theorem C9_end_to_end :
    (normalize_record "sdmlab".toList c9_key c9_meta).map
      (fun p => (p.1.id, p.1.date_ymd, p.1.return_period, p.1.centroid_lon,
                 p.1.centroid_lat, p.1.tif_url)) =
      some ("Tier_1/SiteA/foo".toList, some "2021-06-15".toList, none,
            (-87.5 : ℚ), (33.2 : ℚ), some c9_url) ∧
    "/Tier_1/SiteA/foo.tif".toList.isSuffixOf c9_url = true := by
  constructor
  · rfl
  · decide

/-- C6, counterexample: for the key `tierless/site/x_metadata.json` the path
segment `tierless` starts with `tier` but carries no digit, and the emitted
tier is the segment itself — neither `Unknown_Tier` nor any `Tier_1..5`. -/
theorem C6_tier_passthrough :
    (normalize_record "b".toList c6_key (.obj [])).map (fun p => p.1.tier) =
      some "tierless".toList ∧
    spec_tier_ok "tierless".toList = false := ⟨rfl, rfl⟩

/-- C10, counterexample: the listing filter accepts keys case-insensitively,
so `FIM_Database/Tier_1/SiteA/FOO_METADATA.JSON` is a metadata key; with no
file-name alias present, the id's final segment is `FOO_METADATA`, which
does not end in the (lower-case) `_metadata`, though `tif_url` is null and
the segment is the key's basename without its extension as claimed. -/
theorem C10_uppercase_extension :
    "_metadata.json".toList.isSuffixOf (c10_key.map Char.toLower) = true ∧
    (normalize_record "b".toList c10_key (.obj [])).map
      (fun p => (p.1.tif_url, afterLastSlash p.1.id)) =
      some (none, "FOO_METADATA".toList) ∧
    "_metadata".toList.isSuffixOf "FOO_METADATA".toList = false := ⟨rfl, rfl, rfl⟩

/-- Helper: the temporal fields of a built record are selected by its tier
exactly as lines 175–176 of `build_catalog.py` write them. -/
theorem mkCore_tier_exclusive (b k : Str) (fs : List (Str × JsonValue)) :
    ((mkCore b k fs).tier = "Tier_4".toList → (mkCore b k fs).date_ymd = none) ∧
    ((mkCore b k fs).tier ≠ "Tier_4".toList → (mkCore b k fs).return_period = none) := by
  have hd : (mkCore b k fs).date_ymd =
      (if (mkCore b k fs).tier ≠ "Tier_4".toList
       then extract_ymd_iso (safe_get fs dateAliases) else none) := rfl
  have hr : (mkCore b k fs).return_period =
      (if (mkCore b k fs).tier = "Tier_4".toList
       then extract_return_period (safe_get fs dateAliases) else none) := rfl
  constructor
  · intro ht
    rw [hd, if_neg (not_not_intro ht)]
  · intro ht
    rw [hr, if_neg ht]

/-- C3: for every successfully normalized record, a `Tier_4` tier forces
`date_ymd = null` and any other tier forces `return_period = null`; the two
temporal fields are mutually exclusive, selected by tier. -/
theorem C3_tier4_exclusivity (bucket meta_key : Str) (meta : JsonValue)
    (core : CoreRecord) (g : Option JsonValue)
    (h : normalize_record bucket meta_key meta = some (core, g)) :
    (core.tier = "Tier_4".toList → core.date_ymd = none) ∧
    (core.tier ≠ "Tier_4".toList → core.return_period = none) := by
  cases meta with
  | obj fields =>
    unfold normalize_record at h
    by_cases hb : fnRaises (safe_get fields fileAliases) = true
    · simp [hb] at h
    · simp only [hb, Bool.false_eq_true, if_false, Option.some.injEq, Prod.mk.injEq,
        eq_self_iff_true] at h
      obtain ⟨h1, _⟩ := h
      subst h1
      exact mkCore_tier_exclusive bucket meta_key fields
  | null => simp [normalize_record] at h
  | bool b => simp [normalize_record] at h
  | num q => simp [normalize_record] at h
  | nan => simp [normalize_record] at h
  | inf n => simp [normalize_record] at h
  | str s => simp [normalize_record] at h
  | arr l => simp [normalize_record] at h

/-- Witness for C3 at a concrete `Tier_4` record with no date text. -/
theorem C3_tier4_exclusivity_witness :
    (normalize_record "b".toList "FIM_Database/Tier_4/S/r_metadata.json".toList
      (.obj [])).map (fun p => p.1.date_ymd) = some none := by
  have h : normalize_record "b".toList "FIM_Database/Tier_4/S/r_metadata.json".toList
      (.obj []) = some (mkCore "b".toList "FIM_Database/Tier_4/S/r_metadata.json".toList [],
        pyGet [] "FIM_Geometry".toList) := rfl
  have h2 := (C3_tier4_exclusivity "b".toList "FIM_Database/Tier_4/S/r_metadata.json".toList
      (.obj []) _ _ h).1 (by decide)
  rw [h]
  exact congrArg some h2

/-- Helper: a list is a `isPrefixOf` of itself extended to the right. -/
theorem isPrefixOf_append_self (l t : Str) : l.isPrefixOf (l ++ t) = true := by
  induction l with
  | nil => simp [List.isPrefixOf]
  | cons c cs ih => simp [List.isPrefixOf, ih]

/-- Helper: the anchored tier regex only ever captures a decimal digit. -/
theorem tierRegexMatch_isDigit {s : Str} {d : Char} (h : tierRegexMatch s = some d) :
    d.isDigit = true := by
  unfold tierRegexMatch at h
  cases h0 : tierDigitCand s with
  | none => rw [h0] at h; cases h
  | some d0 =>
    rw [h0] at h
    have h2 : (if d0.isDigit = true then some d0 else none) = some d := h
    by_cases hd : d0.isDigit = true
    · rw [if_pos hd] at h2
      obtain rfl := Option.some.inj h2
      exact hd
    · rw [if_neg hd] at h2
      cases h2

/-- Helper: `norm_tier` of the selected segment always lands in one of the
three shapes recorded by `tierShape`. -/
theorem norm_tier_shape (k p : Str)
    (hmem : p ∈ pySplit '/' k)
    (hpred : "tier".toList.isPrefixOf (p.map Char.toLower) = true) :
    tierShape (norm_tier p) k = true := by
  by_cases hnil : p = []
  · have h1 : norm_tier p = "Unknown_Tier".toList := by
      rw [hnil]; decide
    rw [h1]
    simp [tierShape]
  · have h1 : norm_tier p = (match tierRegexMatch (pyStrip p) with
      | some d => "Tier_".toList ++ [d]
      | none => pyStrip p) := by
      unfold norm_tier
      rw [if_neg hnil]
    rw [h1]
    cases hm : tierRegexMatch (pyStrip p) with
    | none =>
      show tierShape (pyStrip p) k = true
      unfold tierShape
      simp only [Bool.or_eq_true]
      refine Or.inr (List.any_eq_true.mpr ⟨p, hmem, ?_⟩)
      simp only [Bool.and_eq_true, decide_eq_true_eq]
      exact ⟨hpred, trivial⟩
    | some d =>
      show tierShape ("Tier_".toList ++ [d]) k = true
      unfold tierShape
      simp only [Bool.or_eq_true, Bool.and_eq_true]
      have hd := tierRegexMatch_isDigit hm
      have hpref := isPrefixOf_append_self "Tier_".toList [d]
      have hlast : ("Tier_".toList ++ [d]).getLast? = some d :=
        List.getLast?_concat _
      refine Or.inl (Or.inr ⟨⟨?_, hpref⟩, ?_⟩)
      · simp
      · rw [hlast]
        exact hd

/-- Helper: the tier of a built record lands in one of the `tierShape`
shapes. -/
theorem mkCore_tier_shape (b k : Str) (fs : List (Str × JsonValue)) :
    tierShape (mkCore b k fs).tier k = true := by
  have htier : (mkCore b k fs).tier = norm_tier (((pySplit '/' k).find?
      (fun p => "tier".toList.isPrefixOf (p.map Char.toLower))).getD
      "Unknown_Tier".toList) := rfl
  rw [htier]
  cases hf : (pySplit '/' k).find?
      (fun p => "tier".toList.isPrefixOf (p.map Char.toLower)) with
  | none =>
    simp only [Option.getD_none]
    have h1 : norm_tier "Unknown_Tier".toList = "Unknown_Tier".toList := by decide
    rw [h1]
    simp [tierShape]
  | some p =>
    simp only [Option.getD_some]
    have hpred : "tier".toList.isPrefixOf (p.map Char.toLower) = true := by
      have h2 := List.find?_some hf
      simpa using h2
    exact norm_tier_shape k p (List.mem_of_find?_eq_some hf) hpred

/-- C6, amended: the tier of every successfully normalized record is either
`Unknown_Tier` (also when no path segment starts with `tier`), or a
canonical `Tier_<digit>` for some decimal digit (not only 1–5), or — when
the first `tier`-prefixed segment does not match `tier[_\s-]*<digit>\b` —
the stripped text of that segment itself, passed through verbatim. -/
theorem C6_tier_values (bucket meta_key : Str) (meta : JsonValue)
    (core : CoreRecord) (g : Option JsonValue)
    (h : normalize_record bucket meta_key meta = some (core, g)) :
    tierShape core.tier meta_key = true := by
  cases meta with
  | obj fields =>
    unfold normalize_record at h
    by_cases hb : fnRaises (safe_get fields fileAliases) = true
    · simp [hb] at h
    · simp only [hb, Bool.false_eq_true, if_false, Option.some.injEq, Prod.mk.injEq] at h
      obtain ⟨h1, _⟩ := h
      subst h1
      exact mkCore_tier_shape bucket meta_key fields
  | null => simp [normalize_record] at h
  | bool b => simp [normalize_record] at h
  | num q => simp [normalize_record] at h
  | nan => simp [normalize_record] at h
  | inf n => simp [normalize_record] at h
  | str s => simp [normalize_record] at h
  | arr l => simp [normalize_record] at h

/-- Witness for the amended C6 at the key of the C9 example. -/
theorem C6_tier_values_witness :
    tierShape "Tier_1".toList "FIM_Database/Tier_1/S/x_metadata.json".toList = true := by
  have h : normalize_record "b".toList "FIM_Database/Tier_1/S/x_metadata.json".toList
      (.obj []) = some (mkCore "b".toList "FIM_Database/Tier_1/S/x_metadata.json".toList [],
        pyGet [] "FIM_Geometry".toList) := rfl
  have h2 := C6_tier_values "b".toList "FIM_Database/Tier_1/S/x_metadata.json".toList
      (.obj []) _ _ h
  have h3 : (mkCore "b".toList "FIM_Database/Tier_1/S/x_metadata.json".toList []).tier =
      "Tier_1".toList := by decide
  rwa [h3] at h2

/-- C7: robustness of the geometry simplifier.  Under the modelling
assumption that the reprojection and simplification calls only raise
`GEOSException` (pyproj's transformers do not raise by default: with
`errcheck=False` a failed projection yields infinities instead), the
function returns null — and never lets an exception escape — whenever the
input is null, `shape` raises on it, the geometry is empty, a
projection/topology `GEOSException` is raised mid-pipeline, or the
simplified geometry comes back empty. -/
theorem C7_simplify_robust {G : Type} (L : GeoLib G) (tol : ℚ) (gj : JsonValue)
    (g g3 gs g4 : G) (e : PyExc)
    (hg1 : ∀ x, L.to_3857 x ≠ .error PyExc.other)
    (hg2 : ∀ x, L.simplify x tol ≠ .error PyExc.other)
    (hg3 : ∀ x, L.to_4326 x ≠ .error PyExc.other) :
    (simplify_geojson_lonlat L none tol = .ok none) ∧
    (L.shape gj = .error e → simplify_geojson_lonlat L (some gj) tol = .ok none) ∧
    (L.shape gj = .ok g → L.is_empty g = true →
      simplify_geojson_lonlat L (some gj) tol = .ok none) ∧
    (L.shape gj = .ok g → L.is_empty g = false → L.to_3857 g = .error PyExc.geos →
      simplify_geojson_lonlat L (some gj) tol = .ok none) ∧
    (L.shape gj = .ok g → L.is_empty g = false → L.to_3857 g = .ok g3 →
      L.simplify g3 tol = .error PyExc.geos →
      simplify_geojson_lonlat L (some gj) tol = .ok none) ∧
    (L.shape gj = .ok g → L.is_empty g = false → L.to_3857 g = .ok g3 →
      L.simplify g3 tol = .ok gs → L.to_4326 gs = .error PyExc.geos →
      simplify_geojson_lonlat L (some gj) tol = .ok none) ∧
    (L.shape gj = .ok g → L.is_empty g = false → L.to_3857 g = .ok g3 →
      L.simplify g3 tol = .ok gs → L.to_4326 gs = .ok g4 → L.is_empty g4 = true →
      simplify_geojson_lonlat L (some gj) tol = .ok none) ∧
    (∃ r : Option JsonValue, simplify_geojson_lonlat L (some gj) tol = .ok r) := by
  refine ⟨rfl, ?_, ?_, ?_, ?_, ?_, ?_, ?_⟩
  · intro hs
    simp [simplify_geojson_lonlat, hs]
  · intro hs hemp
    simp [simplify_geojson_lonlat, hs, hemp]
  · intro hs hemp h3
    simp [simplify_geojson_lonlat, hs, hemp, h3, catchGeos]
  · intro hs hemp h3 hsi
    simp [simplify_geojson_lonlat, hs, hemp, h3, hsi, catchGeos]
  · intro hs hemp h3 hsi h4
    simp [simplify_geojson_lonlat, hs, hemp, h3, hsi, h4, catchGeos]
  · intro hs hemp h3 hsi h4 hemp4
    simp [simplify_geojson_lonlat, hs, hemp, h3, hsi, h4, hemp4, catchGeos]
  · unfold simplify_geojson_lonlat
    dsimp only
    cases hs : L.shape gj with
    | error e0 => exact ⟨none, rfl⟩
    | ok g0 =>
      dsimp only
      by_cases hemp : L.is_empty g0 = true
      · rw [if_pos hemp]; exact ⟨none, rfl⟩
      · rw [if_neg hemp]
        cases h3 : L.to_3857 g0 with
        | error e3 =>
          cases e3 with
          | geos => exact ⟨none, by simp [catchGeos]⟩
          | other => exact absurd h3 (hg1 g0)
        | ok w3 =>
          cases hsi : L.simplify w3 tol with
          | error es =>
            cases es with
            | geos => exact ⟨none, by simp [catchGeos, hsi]⟩
            | other => exact absurd hsi (hg2 w3)
          | ok ws =>
            cases h4 : L.to_4326 ws with
            | error e4 =>
              cases e4 with
              | geos => exact ⟨none, by simp [catchGeos, hsi, h4]⟩
              | other => exact absurd h4 (hg3 ws)
            | ok w4 =>
              by_cases hemp4 : L.is_empty w4 = true
              · exact ⟨none, by simp [catchGeos, hsi, h4, hemp4]⟩
              · exact ⟨some (L.mapping w4), by simp [catchGeos, hsi, h4, hemp4]⟩

/-- Witness for C7 with the oracle whose Web-Mercator reprojection raises a
`GEOSException`: the function swallows the exception and returns null, and a
null input also returns null. -/
theorem C7_simplify_robust_witness :
    simplify_geojson_lonlat geosFailLib (some (.obj [("t".toList, .num 1)])) 100 =
      .ok none ∧
    simplify_geojson_lonlat geosFailLib none 100 = .ok none := by
  have hg1 : ∀ x, geosFailLib.to_3857 x ≠ .error PyExc.other := by
    intro x h
    cases h
  have hg2 : ∀ x, geosFailLib.simplify x 100 ≠ .error PyExc.other := by
    intro x h
    cases h
  have hg3 : ∀ x, geosFailLib.to_4326 x ≠ .error PyExc.other := by
    intro x h
    cases h
  have h := C7_simplify_robust geosFailLib 100 (.obj [("t".toList, .num 1)])
    () () () () PyExc.geos hg1 hg2 hg3
  exact ⟨h.2.2.2.1 rfl rfl rfl, h.1⟩

/-- Helper: one loop iteration preserves the invariant that every feature
row's id is the id of some accumulated record. -/
theorem geom_step_feature_id {G : Type} (L : GeoLib G) (sk : Bool) (tol : ℚ)
    (geom : Option JsonValue) (core : CoreRecord) (row : ExtRow)
    (h : geom_step L sk tol geom core = .feature row) : row.id = core.id := by
  unfold geom_step at h
  by_cases hsk : sk = true
  · rw [if_pos hsk] at h
    cases h
  · rw [if_neg hsk] at h
    cases geom with
    | none => cases h
    | some g =>
      simp only at h
      by_cases hg : pyTruthy g = true
      · rw [if_pos hg] at h
        cases hsim : simplify_geojson_lonlat L (some g) tol with
        | error e0 => rw [hsim] at h; cases h
        | ok osimp =>
          rw [hsim] at h
          cases osimp with
          | none => cases h
          | some simp0 =>
            simp only at h
            by_cases hts : pyTruthy simp0 = true
            · rw [if_pos hts] at h
              cases h
              rfl
            · rw [if_neg hts] at h
              cases h
      · rw [if_neg hg] at h
        cases h

/-- Helper: one loop iteration preserves the invariant that every feature
row's id is the id of some accumulated record. -/
theorem process_one_ext_inv {G : Type} (L : GeoLib G) (sk : Bool) (tol : ℚ) (b : Str)
    (st : BatchState) (item : Str × Str)
    (h : ∀ e ∈ st.ext_rows, ∃ r ∈ st.core_rows, r.id = e.id) :
    ∀ e ∈ (process_one L sk tol b st item).ext_rows,
      ∃ r ∈ (process_one L sk tol b st item).core_rows, r.id = e.id := by
  intro e
  unfold process_one
  cases hl : load_with_context item.2 item.1 with
  | error msg =>
    intro he
    simp only [addError] at he ⊢
    exact h e he
  | ok meta =>
    dsimp only
    cases hn : normalize_record b item.1 meta with
    | none =>
      intro he
      simp only [addError] at he ⊢
      exact h e he
    | some pg =>
      obtain ⟨core0, geom⟩ := pg
      dsimp only
      set core := { core0 with id := (dedup_assign st.seen_ids core0.id).1 } with hcore
      have hgrow : ∀ e2 ∈ st.ext_rows, ∃ r ∈ st.core_rows ++ [core], r.id = e2.id := by
        intro e2 he2
        obtain ⟨r, hr, hid⟩ := h e2 he2
        exact ⟨r, List.mem_append_left _ hr, hid⟩
      cases hgs : geom_step L sk tol geom core with
      | nothing =>
        intro he
        exact hgrow e he
      | feature row =>
        intro he
        dsimp only at he ⊢
        rcases List.mem_append.mp he with hold | hnew
        · exact hgrow e hold
        · obtain rfl : e = row := List.mem_singleton.mp hnew
          exact ⟨core, List.mem_append_right _ (List.mem_singleton.mpr rfl),
            (geom_step_feature_id L sk tol geom core e hgs).symm⟩
      | failure msg =>
        intro he
        simp only [addError] at he ⊢
        exact hgrow e he

/-- Helper: the invariant holds of every state reachable by folding the loop
body from a state that satisfies it. -/
theorem foldl_ext_inv {G : Type} (L : GeoLib G) (sk : Bool) (tol : ℚ) (b : Str) :
    ∀ (items : List (Str × Str)) (st : BatchState),
      (∀ e ∈ st.ext_rows, ∃ r ∈ st.core_rows, r.id = e.id) →
      ∀ e ∈ (items.foldl (process_one L sk tol b) st).ext_rows,
        ∃ r ∈ (items.foldl (process_one L sk tol b) st).core_rows, r.id = e.id := by
  intro items
  induction items with
  | nil => intro st h; exact h
  | cons it its ih =>
    intro st h
    exact ih _ (process_one_ext_inv L sk tol b st it h)

/-- C2: every feature emitted into the spatial extract carries an id equal
to the post-deduplication id of a catalog record of the same run — the join
key never dangles. -/
theorem C2_ext_ids_match_records {G : Type} (L : GeoLib G) (sk : Bool) (tol : ℚ)
    (bucket : Str) (items : List (Str × Str)) (e : ExtRow)
    (he : e ∈ (run_batch L sk tol bucket items).ext_rows) :
    ∃ r ∈ (run_batch L sk tol bucket items).core_rows, r.id = e.id := by
  refine foldl_ext_inv L sk tol bucket items initBatch ?_ e he
  intro e2 he2
  cases he2

/-- Witness for C2: the single-feature run over `c2w_items` has a record
matching the feature's id. -/
theorem C2_ext_ids_match_records_witness :
    ((run_batch unitLib false 100 "b".toList c2w_items).core_rows.any
      (fun r => r.id == c2w_row.id)) = true := by
  have hrows : (run_batch unitLib false 100 "b".toList c2w_items).ext_rows =
      [c2w_row] := rfl
  have hmem : c2w_row ∈ (run_batch unitLib false 100 "b".toList c2w_items).ext_rows := by
    rw [hrows]
    exact List.mem_singleton.mpr rfl
  obtain ⟨r, hr, hid⟩ :=
    C2_ext_ids_match_records unitLib false 100 "b".toList c2w_items c2w_row hmem
  refine List.any_eq_true.mpr ⟨r, hr, ?_⟩
  exact beq_iff_eq.mpr hid

/-- Helper: the one-step unfolding of `afterLastSlash`. -/
theorem afterLastSlash_cons (c : Char) (cs : Str) :
    afterLastSlash (c :: cs) =
      if c = '/' then afterLastSlash cs
      else if '/' ∈ cs then afterLastSlash cs else c :: cs := rfl

/-- Helper: the basename of anything left of a slash is the basename of what
is right of it. -/
theorem afterLastSlash_append_slash (xs ys : Str) :
    afterLastSlash (xs ++ '/' :: ys) = afterLastSlash ys := by
  induction xs with
  | nil =>
    show afterLastSlash ('/' :: ys) = afterLastSlash ys
    rw [afterLastSlash_cons, if_pos rfl]
  | cons c cs ih =>
    show afterLastSlash (c :: (cs ++ '/' :: ys)) = afterLastSlash ys
    rw [afterLastSlash_cons]
    by_cases hc : c = '/'
    · rw [if_pos hc]
      exact ih
    · rw [if_neg hc, if_pos (List.mem_append_right cs (List.mem_cons_self '/' ys))]
      exact ih

/-- Helper: the basename of a slash-free string is itself. -/
theorem afterLastSlash_no_slash {ys : Str} (h : '/' ∉ ys) : afterLastSlash ys = ys := by
  cases ys with
  | nil => rfl
  | cons c cs =>
    have hc : ¬ c = '/' := by
      intro hc
      exact h (by rw [hc]; exact List.mem_cons_self '/' cs)
    have hm : ¬ '/' ∈ cs := fun hm => h (List.mem_cons_of_mem c hm)
    rw [afterLastSlash_cons, if_neg hc, if_neg hm]

/-- Helper: a basename never contains a slash. -/
theorem afterLastSlash_slash_free : ∀ s : Str, '/' ∉ afterLastSlash s := by
  intro s
  induction s with
  | nil => simp [afterLastSlash]
  | cons c cs ih =>
    rw [afterLastSlash_cons]
    by_cases hc : c = '/'
    · rw [if_pos hc]; exact ih
    · rw [if_neg hc]
      by_cases hm : '/' ∈ cs
      · rw [if_pos hm]; exact ih
      · rw [if_neg hm]
        intro hmem
        rcases List.mem_cons.mp hmem with h1 | h2
        · exact hc h1.symm
        · exact hm h2

/-- Helper: a slash-free suffix survives taking the basename. -/
theorem afterLastSlash_keeps_suffix {S : Str} (hS : '/' ∉ S) :
    ∀ k0 : Str, S <:+ afterLastSlash (k0 ++ S) := by
  intro k0
  induction k0 with
  | nil => rw [List.nil_append, afterLastSlash_no_slash hS]
  | cons c cs ih =>
    show S <:+ afterLastSlash (c :: (cs ++ S))
    rw [afterLastSlash_cons]
    by_cases hc : c = '/'
    · rw [if_pos hc]; exact ih
    · rw [if_neg hc]
      by_cases hm : '/' ∈ cs ++ S
      · rw [if_pos hm]; exact ih
      · rw [if_neg hm]
        exact ⟨c :: cs, rfl⟩

/-- Helper: the last-dot index after prepending a prefix. -/
theorem lastDotIdx_append (S : Str) (i : Nat) (h : lastDotIdx S = some i) :
    ∀ xs : Str, lastDotIdx (xs ++ S) = some (xs.length + i) := by
  intro xs
  induction xs with
  | nil => simpa using h
  | cons c cs ih =>
    show lastDotIdx (c :: (cs ++ S)) = some ((c :: cs).length + i)
    have hstep : lastDotIdx (c :: (cs ++ S)) =
        (match lastDotIdx (cs ++ S) with
         | some j => some (j + 1)
         | none => if c = '.' then some 0 else none) := rfl
    rw [hstep, ih]
    have : (c :: cs).length + i = cs.length + i + 1 := by
      rw [List.length_cons]
      omega
    rw [this]

/-- Helper: taking the length of the left part plus `n` splits over an
append. -/
theorem take_len_append (l1 l2 : Str) (n : Nat) :
    (l1 ++ l2).take (l1.length + n) = l1 ++ l2.take n := by
  induction l1 with
  | nil => simp
  | cons c cs ih =>
    have hlen : (c :: cs).length + n = (cs.length + n) + 1 := by
      rw [List.length_cons]
      omega
    rw [List.cons_append, hlen, List.take_succ_cons, ih, List.cons_append]

/-- Helper: membership in the splitext root implies membership in the
basename. -/
theorem splitextBase_subset (p : Str) : ∀ x, x ∈ splitextBase p → x ∈ p := by
  intro x
  unfold splitextBase
  cases lastDotIdx p with
  | none => exact fun h => h
  | some i =>
    dsimp only
    by_cases ha : ((p.take i).all (fun c => decide (c = '.'))) = true
    · rw [if_pos ha]; exact fun h => h
    · rw [if_neg ha]; exact fun h => List.take_subset i p h

/-- Helper: splitting the extension off a basename that ends in
`_metadata.json` leaves `_metadata`. -/
theorem splitextBase_metadata (b0 : Str) :
    splitextBase (b0 ++ "_metadata.json".toList) = b0 ++ "_metadata".toList := by
  have hS : lastDotIdx "_metadata.json".toList = some 9 := by decide
  have hidx := lastDotIdx_append "_metadata.json".toList 9 hS b0
  have htake : (b0 ++ "_metadata.json".toList).take (b0.length + 9) =
      b0 ++ "_metadata".toList := take_len_append b0 "_metadata.json".toList 9
  have hall : ((b0 ++ "_metadata.json".toList).take (b0.length + 9)).all
      (fun c => decide (c = '.')) = false := by
    rw [htake, List.all_append]
    have h2 : ("_metadata".toList).all (fun c => decide (c = '.')) = false := by decide
    simp [h2]
  have hcond : ¬ (((b0 ++ "_metadata.json".toList).take (b0.length + 9)).all
      (fun c => decide (c = '.')) = true) := by
    rw [hall]
    exact Bool.false_ne_true
  unfold splitextBase
  rw [hidx]
  dsimp only
  rw [if_neg hcond]
  exact htake

/-- Helper: the basename of a stable id is the splitext root of the
basename of the third component. -/
theorem afterLastSlash_stable_id (tier site fk : Str) :
    afterLastSlash (stable_id tier site fk) = splitextBase (afterLastSlash fk) := by
  unfold stable_id
  rw [afterLastSlash_append_slash, afterLastSlash_append_slash]
  refine afterLastSlash_no_slash ?_
  intro hmem
  exact afterLastSlash_slash_free fk (splitextBase_subset (afterLastSlash fk) '/' hmem)

/-- Helper: `safe_get` yields nothing when every alias is absent or null. -/
theorem safe_get_none (fields : List (Str × JsonValue)) :
    ∀ names : List Str,
      (∀ a ∈ names, objGet fields a = none ∨ objGet fields a = some JsonValue.null) →
      safe_get fields names = none := by
  intro names
  induction names with
  | nil => intro _; rfl
  | cons n ns ih =>
    intro hall
    unfold safe_get
    rcases hall n (List.mem_cons_self n ns) with h1 | h1
    · rw [h1]
      exact ih (fun a ha => hall a (List.mem_cons_of_mem n ha))
    · rw [h1]
      exact ih (fun a ha => hall a (List.mem_cons_of_mem n ha))

/-- C10, amended: when no file-name alias is present with a non-null value,
`tif_url` is null and the record id is derived from the metadata key itself:
its final path segment is the key's basename without its final extension,
and — for a key ending in the lower-case `_metadata.json` (keys the listing
accepts case-insensitively may yield other casings, per the counterexample)
— that segment ends in `_metadata`. -/
theorem C10_no_filename_id_from_key (bucket meta_key : Str)
    (fields : List (Str × JsonValue))
    (hn : ∀ a ∈ fileAliases, objGet fields a = none ∨ objGet fields a = some JsonValue.null)
    (hk : "_metadata.json".toList <:+ meta_key)
    (core : CoreRecord) (g : Option JsonValue)
    (h : normalize_record bucket meta_key (.obj fields) = some (core, g)) :
    core.tif_url = none ∧
    afterLastSlash core.id = splitextBase (afterLastSlash meta_key) ∧
    "_metadata".toList <:+ afterLastSlash core.id := by
  have hfn : safe_get fields fileAliases = none := safe_get_none fields fileAliases hn
  have hb : fnRaises (safe_get fields fileAliases) = false := by
    rw [hfn]; rfl
  unfold normalize_record at h
  dsimp only at h
  rw [hb] at h
  simp only [Bool.false_eq_true, if_false, Option.some.injEq, Prod.mk.injEq] at h
  obtain ⟨h1, _⟩ := h
  subst h1
  have hurl : (mkCore bucket meta_key fields).tif_url =
      (match safe_get fields fileAliases with
       | some v => if pyTruthy v then some (s3_http_url bucket
           (List.intercalate ['/'] (pySplit '/' meta_key).dropLast ++ '/' :: pyStr v))
         else none
       | none => none) := rfl
  rw [hfn] at hurl
  have hid : (mkCore bucket meta_key fields).id =
      stable_id (mkCore bucket meta_key fields).tier (mkCore bucket meta_key fields).site
        (match safe_get fields fileAliases with
         | some v => if pyTruthy v then pyStr v else meta_key
         | none => meta_key) := rfl
  rw [hfn] at hid
  have hseg : afterLastSlash (mkCore bucket meta_key fields).id =
      splitextBase (afterLastSlash meta_key) := by
    rw [hid]
    exact afterLastSlash_stable_id _ _ _
  refine ⟨hurl, hseg, ?_⟩
  rw [hseg]
  obtain ⟨k0, hkey⟩ := hk
  have hS : '/' ∉ "_metadata.json".toList := by decide
  have hsuf : "_metadata.json".toList <:+ afterLastSlash meta_key := by
    rw [← hkey]
    exact afterLastSlash_keeps_suffix hS k0
  obtain ⟨b0, hb0⟩ := hsuf
  rw [← hb0, splitextBase_metadata b0]
  exact ⟨b0, rfl⟩

/-- Witness for the amended C10 at an alias-free metadata object. -/
theorem C10_no_filename_id_from_key_witness :
    (normalize_record "b".toList "Tier_1/S/r_metadata.json".toList (.obj [])).map
      (fun p => (p.1.tif_url, afterLastSlash p.1.id)) = some (none, "r_metadata".toList) ∧
    "_metadata".toList.isSuffixOf "r_metadata".toList = true := by
  have h : normalize_record "b".toList "Tier_1/S/r_metadata.json".toList (.obj []) =
      some (mkCore "b".toList "Tier_1/S/r_metadata.json".toList [],
        pyGet [] "FIM_Geometry".toList) := rfl
  have hn : ∀ a ∈ fileAliases,
      objGet ([] : List (Str × JsonValue)) a = none ∨
      objGet ([] : List (Str × JsonValue)) a = some JsonValue.null := by
    intro a _
    exact Or.inl rfl
  have hk : "_metadata.json".toList <:+ "Tier_1/S/r_metadata.json".toList :=
    ⟨"Tier_1/S/r".toList, by decide⟩
  have h2 := C10_no_filename_id_from_key "b".toList "Tier_1/S/r_metadata.json".toList
    [] hn hk _ _ h
  constructor
  · rw [h]
    have h3 : afterLastSlash (mkCore "b".toList "Tier_1/S/r_metadata.json".toList []).id =
        "r_metadata".toList := by
      rw [h2.2.1]; decide
    have h4 := h2.1
    simp only [Option.map_some']
    rw [h3, h4]
  · decide

end FimCatalog
